import Mathlib

/-!
Verification of the constraint model builder (`backend/solver/constraint_builder.py`)

This file gives a shallow embedding of `generate_schedule_from_inputs` and the
helper `_index_objects` from `backend/solver/constraint_builder.py`, and proves
properties of the natural-language specification against it.

Modelling conventions:
* Python dicts for entities become records.  A field read with `d.get(key, default)`
  becomes a plain field (a dict missing the key is represented by the default value);
  the `id` fields become `Option String` because the source reads them with
  `d.get("id")` (default `None`) in most places but with `d["id"]` (raising
  `KeyError`) inside `_index_objects` and the timeslot-id extraction.
* Raising `KeyError` becomes `Except.error PyError.keyError`.
* The CP-SAT backend is external to the repository; per the spec (§6) it receives
  boolean variables, the compiled constraints and a linear objective, and returns a
  satisfying assignment of maximal objective value when one exists, else infeasible.
  It is modelled here by exhaustive enumeration (`solveModel`): the decision
  variables are the distinct keys of the `assign` dict, a candidate solution is a
  subset of them, and the solver returns a satisfying subset of maximal score.
  The wall-clock budget (`max_time_s`) is real time and is not modelled; the model
  corresponds to a solve that terminates with OPTIMAL/INFEASIBLE.
-/

/-- A faculty record.  `available_days` and `no_consecutive_slots` are read by the
source (lines 112-113) but never used. -/
structure Faculty where
  id : Option String
  available_days : List String
  available_slots : List String
  preferred_slots : List String
  no_consecutive_slots : Bool
deriving DecidableEq, Repr

/-- A room record.  The source defaults a missing `capacity` to 9999; a caller's
dict missing the key is represented by that field value. -/
structure Room where
  id : Option String
  capacity : Nat
  room_affinity : List String
deriving DecidableEq, Repr

/-- A subject record.  A missing `subject_type` reads as a value that is not
`"lab"`; a missing `duration` defaults to 2. -/
structure Subject where
  id : Option String
  subject_type : String
  duration : Nat
  requires_continuous_slots : Bool
deriving DecidableEq, Repr

/-- A batch record.  A missing `student_count` defaults to 0. -/
structure Batch where
  id : Option String
  branch_id : Option String
  track_code : Option String
  student_count : Nat
deriving DecidableEq, Repr

/-- A timeslot record; only its `id` is read, via `ts["id"]` (raising on a
missing key). -/
structure TimeSlot where
  id : Option String
deriving DecidableEq, Repr

/-- One entry of `payload_overrides["fixed_assignments"]`; all five keys are read
with `fix[...]`. -/
structure FixedAssignment where
  subject_id : Option String
  batch_id : Option String
  slot : String
  room_id : Option String
  faculty_id : Option String
deriving DecidableEq, Repr

/-- The input of `generate_schedule_from_inputs`.  `payload_overrides` is
represented by its `fixed_assignments` entry; `max_time_s` is a wall-clock
budget and is not modelled. -/
structure SchedInput where
  faculty_list : List Faculty
  room_list : List Room
  subject_list : List Subject
  batch_list : List Batch
  timeslot_list : List TimeSlot
  fixed_assignments : List FixedAssignment
deriving DecidableEq, Repr

/-- A Python `KeyError` escaping the call. -/
inductive PyError where
  | keyError
deriving DecidableEq, Repr

/-- One record of the returned `assignments` list. -/
structure Assignment where
  subject_id : Option String
  batch_id : Option String
  slot : String
  room_id : Option String
  faculty_id : Option String
deriving DecidableEq, Repr

/-- The returned dict: `{"status": "ok", "assignments_count": len(a), "assignments": a}`
(the count is the length of the list) or `{"status": "unsat"}`. -/
inductive ScheduleResult where
  | ok (assignments : List Assignment)
  | unsat
deriving DecidableEq, Repr

instance {ε α : Type} [DecidableEq ε] [DecidableEq α] : DecidableEq (Except ε α) := fun x y =>
  match x, y with
  | Except.ok a, Except.ok b =>
    if h : a = b then isTrue (by rw [h]) else isFalse (fun c => h (by injection c))
  | Except.error a, Except.error b =>
    if h : a = b then isTrue (by rw [h]) else isFalse (fun c => h (by injection c))
  | Except.ok _, Except.error _ => isFalse (fun c => by injection c)
  | Except.error _, Except.ok _ => isFalse (fun c => by injection c)

/-- Python-dict insertion: overwrite the binding if the key is present (keeping
its position), else append. -/
def assocInsert {α : Type} (l : List (String × α)) (k : String) (v : α) : List (String × α) :=
  if l.any (fun p => decide (p.1 = k)) then
    l.map (fun p => if p.1 = k then (k, v) else p)
  else l ++ [(k, v)]

/-- Left fold of the dict comprehension `{item[key_field]: item for item in items}`:
items are taken left to right, a missing key raises, a repeated key overwrites. -/
def indexFrom {α : Type} (getKey : α → Option String) (acc : List (String × α)) :
    List α → Except PyError (List (String × α))
  | [] => Except.ok acc
  | item :: rest =>
    match getKey item with
    | none => Except.error PyError.keyError
    | some k => indexFrom getKey (assocInsert acc k item) rest

/-- Source function `_index_objects(items, key_field="id")`. -/
def index_objects {α : Type} (getKey : α → Option String) (items : List α) :
    Except PyError (List (String × α)) :=
  indexFrom getKey [] items

/-- The comprehension `[ts["id"] for ts in timeslot_list]`: left to right, raising on the first
timeslot missing its id. -/
def extractTimeslotIds : List TimeSlot → Except PyError (List String)
  | [] => Except.ok []
  | ts :: rest =>
    match ts.id with
    | none => Except.error PyError.keyError
    | some i => Except.map (fun r => i :: r) (extractTimeslotIds rest)

/-- The fallback slots `[f"slot_{i}" for i in range(1, 9)]` used when no timeslots
are supplied. -/
def fallbackSlots : List String :=
  (List.range' 1 8).map (fun i => "slot_" ++ toString i)

/-- Lines 32-41 of the source: build the (unused) id indices — whose only
observable effect is a `KeyError` on a missing id — then extract the timeslot ids
and substitute the fallback slots when the list comes out empty. -/
def checkIds (inp : SchedInput) : Except PyError (List String) :=
  match (if inp.faculty_list.isEmpty then Except.ok [] else index_objects Faculty.id inp.faculty_list) with
  | Except.error e => Except.error e
  | Except.ok _ =>
  match (if inp.room_list.isEmpty then Except.ok [] else index_objects Room.id inp.room_list) with
  | Except.error e => Except.error e
  | Except.ok _ =>
  match (if inp.subject_list.isEmpty then Except.ok [] else index_objects Subject.id inp.subject_list) with
  | Except.error e => Except.error e
  | Except.ok _ =>
  match (if inp.batch_list.isEmpty then Except.ok [] else index_objects Batch.id inp.batch_list) with
  | Except.error e => Except.error e
  | Except.ok _ =>
  match (if inp.timeslot_list.isEmpty then Except.ok [] else extractTimeslotIds inp.timeslot_list) with
  | Except.error e => Except.error e
  | Except.ok tsIds => Except.ok (if tsIds.isEmpty then fallbackSlots else tsIds)

/-- A key of the `assign` dict: `(sub_id, batch_id, slot, room_id, fac_id)`. -/
structure AKey where
  sub_id : Option String
  batch_id : Option String
  slot : String
  room_id : Option String
  fac_id : Option String
deriving DecidableEq, Repr

/-- The variable-generation loops (lines 48-60): one dict entry per iteration;
duplicate keys (possible only when entity lists repeat an id) collapse to one
variable, see `dedupKeys`. -/
def buildKeys (subs : List Subject) (batches : List Batch) (timeslot_ids : List String)
    (rooms : List Room) (facs : List Faculty) : List AKey :=
  subs.flatMap fun sub => batches.flatMap fun batch => timeslot_ids.flatMap fun slot =>
    rooms.flatMap fun room => facs.map fun fac =>
      ⟨sub.id, batch.id, slot, room.id, fac.id⟩

/-- Keep-first deduplication, mirroring dict-key insertion order. -/
def dedupFrom (seen : List AKey) : List AKey → List AKey
  | [] => []
  | k :: rest =>
    if k ∈ seen then dedupFrom seen rest
    else k :: dedupFrom (k :: seen) rest

/-- The distinct keys of the `assign` dict, in insertion order. -/
def dedupKeys (l : List AKey) : List AKey := dedupFrom [] l

/-- The test `assign.get(key) is not None`. -/
def hasKey (ks : List AKey) (k : AKey) : Bool := decide (k ∈ ks)

/-- The iteration keys of constraint 1's inner loops (subjects × rooms × faculty)
for a given batch id and slot. -/
def bsProduct (subs : List Subject) (rooms : List Room) (facs : List Faculty)
    (batch_id : Option String) (slot : String) : List AKey :=
  subs.flatMap fun sub => rooms.flatMap fun room => facs.map fun fac =>
    ⟨sub.id, batch_id, slot, room.id, fac.id⟩

/-- Value of `sum(to_sum)` for constraint 1 under a boolean assignment σ: the
number of loop iterations whose variable exists and is true. -/
def batchSlotSum (ks : List AKey) (σ : AKey → Bool) (subs : List Subject) (rooms : List Room)
    (facs : List Faculty) (batch_id : Option String) (slot : String) : Nat :=
  (bsProduct subs rooms facs batch_id slot).countP (fun k => hasKey ks k && σ k)

/-- Constraint 1 (lines 64-78): for each batch and slot, at most one assignment. -/
def batchExclusiveOK (ks : List AKey) (σ : AKey → Bool) (subs : List Subject)
    (batches : List Batch) (timeslot_ids : List String) (rooms : List Room)
    (facs : List Faculty) : Bool :=
  batches.all fun batch => timeslot_ids.all fun slot =>
    decide (batchSlotSum ks σ subs rooms facs batch.id slot ≤ 1)

/-- The iteration keys of constraint 2's inner loops (subjects × batches × rooms). -/
def fsProduct (subs : List Subject) (batches : List Batch) (rooms : List Room)
    (fac_id : Option String) (slot : String) : List AKey :=
  subs.flatMap fun sub => batches.flatMap fun batch => rooms.map fun room =>
    ⟨sub.id, batch.id, slot, room.id, fac_id⟩

/-- Value of `sum(to_sum)` for constraint 2 under σ. -/
def facSlotSum (ks : List AKey) (σ : AKey → Bool) (subs : List Subject) (batches : List Batch)
    (rooms : List Room) (fac_id : Option String) (slot : String) : Nat :=
  (fsProduct subs batches rooms fac_id slot).countP (fun k => hasKey ks k && σ k)

/-- Constraint 2 (lines 81-92): no faculty double-booked. -/
def facultyExclusiveOK (ks : List AKey) (σ : AKey → Bool) (subs : List Subject)
    (batches : List Batch) (timeslot_ids : List String) (rooms : List Room)
    (facs : List Faculty) : Bool :=
  facs.all fun fac => timeslot_ids.all fun slot =>
    decide (facSlotSum ks σ subs batches rooms fac.id slot ≤ 1)

/-- The iteration keys of constraint 3's inner loops (subjects × batches × faculty). -/
def rsProduct (subs : List Subject) (batches : List Batch) (facs : List Faculty)
    (room_id : Option String) (slot : String) : List AKey :=
  subs.flatMap fun sub => batches.flatMap fun batch => facs.map fun fac =>
    ⟨sub.id, batch.id, slot, room_id, fac.id⟩

/-- Value of `sum(to_sum)` for constraint 3 under σ. -/
def roomSlotSum (ks : List AKey) (σ : AKey → Bool) (subs : List Subject) (batches : List Batch)
    (facs : List Faculty) (room_id : Option String) (slot : String) : Nat :=
  (rsProduct subs batches facs room_id slot).countP (fun k => hasKey ks k && σ k)

/-- Constraint 3 (lines 95-106): no room double-booked. -/
def roomExclusiveOK (ks : List AKey) (σ : AKey → Bool) (subs : List Subject)
    (batches : List Batch) (timeslot_ids : List String) (rooms : List Room)
    (facs : List Faculty) : Bool :=
  rooms.all fun room => timeslot_ids.all fun slot =>
    decide (roomSlotSum ks σ subs batches facs room.id slot ≤ 1)

/-- Constraint 4 (lines 109-122): a faculty with a non-empty `available_slots`
has every variable on an outside slot forced to 0.  `available_days` and
`no_consecutive_slots` are read in the source loop but never used. -/
def availabilityOK (ks : List AKey) (σ : AKey → Bool) (facs : List Faculty)
    (subs : List Subject) (batches : List Batch) (timeslot_ids : List String)
    (rooms : List Room) : Bool :=
  facs.all fun fac =>
    subs.all fun sub => batches.all fun batch => timeslot_ids.all fun slot =>
      if fac.available_slots ≠ [] ∧ slot ∉ fac.available_slots then
        rooms.all fun room =>
          !(hasKey ks ⟨sub.id, batch.id, slot, room.id, fac.id⟩ &&
            σ ⟨sub.id, batch.id, slot, room.id, fac.id⟩)
      else true

/-- Constraint 5 (lines 125-135): a batch exceeding a room's capacity has every
variable pairing them forced to 0. -/
def capacityOK (ks : List AKey) (σ : AKey → Bool) (rooms : List Room)
    (subs : List Subject) (batches : List Batch) (timeslot_ids : List String)
    (facs : List Faculty) : Bool :=
  rooms.all fun room => subs.all fun sub => batches.all fun batch =>
    if batch.student_count > room.capacity then
      timeslot_ids.all fun slot => facs.all fun fac =>
        !(hasKey ks ⟨sub.id, batch.id, slot, room.id, fac.id⟩ &&
          σ ⟨sub.id, batch.id, slot, room.id, fac.id⟩)
    else true

/-- Lookup in `slot_index = {s: i for i, s in enumerate(timeslot_ids)}`: the index
of the last occurrence (repeated ids overwrite).  Called only on members of
`timeslot_ids`, so the `none` branch is dead. -/
def slotIndexOf (timeslot_ids : List String) (s : String) : Nat :=
  match timeslot_ids.enum.reverse.find? (fun p => decide (p.2 = s)) with
  | some p => p.1
  | none => 0

/-- The `consec_slots` loop (lines 149-156): the run of `required` slots starting
at index `si`, or `none` when it would run past the end of the sequence. -/
def consecRun (timeslot_ids : List String) (si required : Nat) : Option (List String) :=
  if si + required ≤ timeslot_ids.length then some ((timeslot_ids.drop si).take required)
  else none

/-- Constraint 6 (lines 140-180): lab continuity.  A start whose run overflows the
sequence is forced to 0; otherwise each existing successor variable receives the
implication `v_first ≤ v_succ`. -/
def continuityOK (ks : List AKey) (σ : AKey → Bool) (subs : List Subject)
    (batches : List Batch) (timeslot_ids : List String) (rooms : List Room)
    (facs : List Faculty) : Bool :=
  subs.all fun sub =>
    if sub.subject_type = "lab" ∨ sub.requires_continuous_slots = true then
      batches.all fun batch => timeslot_ids.all fun start_slot =>
        match consecRun timeslot_ids (slotIndexOf timeslot_ids start_slot) sub.duration with
        | none =>
          rooms.all fun room => facs.all fun fac =>
            !(hasKey ks ⟨sub.id, batch.id, start_slot, room.id, fac.id⟩ &&
              σ ⟨sub.id, batch.id, start_slot, room.id, fac.id⟩)
        | some consec =>
          rooms.all fun room => facs.all fun fac =>
            if hasKey ks ⟨sub.id, batch.id, start_slot, room.id, fac.id⟩ then
              (consec.drop 1).all fun st =>
                if hasKey ks ⟨sub.id, batch.id, st, room.id, fac.id⟩ then
                  !(σ ⟨sub.id, batch.id, start_slot, room.id, fac.id⟩) ||
                    σ ⟨sub.id, batch.id, st, room.id, fac.id⟩
                else true
            else true
    else true

/-- The `assign` key named by a fixed-assignment override entry. -/
def fixKey (fix : FixedAssignment) : AKey :=
  ⟨fix.subject_id, fix.batch_id, fix.slot, fix.room_id, fix.faculty_id⟩

/-- Constraint 8 (lines 187-192): each override entry whose variable exists is
forced to 1; an entry with no matching variable adds nothing. -/
def fixedOK (ks : List AKey) (σ : AKey → Bool) (fixed : List FixedAssignment) : Bool :=
  fixed.all fun fix =>
    if hasKey ks (fixKey fix) then σ (fixKey fix) else true

/-- All hard constraints of the compiled model, as one decidable predicate on a
boolean assignment of the decision variables. -/
def modelOK (inp : SchedInput) (timeslot_ids : List String) (ks : List AKey)
    (σ : AKey → Bool) : Bool :=
  batchExclusiveOK ks σ inp.subject_list inp.batch_list timeslot_ids inp.room_list inp.faculty_list &&
  facultyExclusiveOK ks σ inp.subject_list inp.batch_list timeslot_ids inp.room_list inp.faculty_list &&
  roomExclusiveOK ks σ inp.subject_list inp.batch_list timeslot_ids inp.room_list inp.faculty_list &&
  availabilityOK ks σ inp.faculty_list inp.subject_list inp.batch_list timeslot_ids inp.room_list &&
  capacityOK ks σ inp.room_list inp.subject_list inp.batch_list timeslot_ids inp.faculty_list &&
  continuityOK ks σ inp.subject_list inp.batch_list timeslot_ids inp.room_list inp.faculty_list &&
  fixedOK ks σ inp.fixed_assignments

/-- The objective coefficient of one variable (lines 197-213): base 1, plus 1 when
the slot is preferred by the first faculty entry with the variable's faculty id,
plus 1 when the first matching room's affinity tags contain the first matching
batch's branch id or track code. -/
def objCoeff (facs : List Faculty) (rooms : List Room) (batches : List Batch) (k : AKey) : Nat :=
  let base := 1
  let prefAdd :=
    match facs.find? (fun f => decide (f.id = k.fac_id)) with
    | some fac => if k.slot ∈ fac.preferred_slots then 1 else 0
    | none => 0
  let affAdd :=
    match rooms.find? (fun r => decide (r.id = k.room_id)),
          batches.find? (fun b => decide (b.id = k.batch_id)) with
    | some room, some batch =>
      let hitBranch := match batch.branch_id with
        | some x => decide (x ∈ room.room_affinity)
        | none => false
      let hitTrack := match batch.track_code with
        | some x => decide (x ∈ room.room_affinity)
        | none => false
      if hitBranch || hitTrack then 1 else 0
    | _, _ => 0
  base + prefAdd + affAdd

/-- The maximized expression `sum(var * coeff)` over the distinct variables,
under a boolean assignment σ. -/
def objValue (dks : List AKey) (facs : List Faculty) (rooms : List Room)
    (batches : List Batch) (σ : AKey → Bool) : Nat :=
  (dks.map (fun k => if σ k then objCoeff facs rooms batches k else 0)).sum

/-- The assignment σ induced by a chosen subset of the variables. -/
def sigmaOf (chosen : List AKey) : AKey → Bool := fun k => decide (k ∈ chosen)

/-- First element of maximal score (ties by position are immaterial: the backend's
tie-break among equally-scored solutions is unspecified). -/
def chooseMax {α : Type} (score : α → Nat) : List α → Option α
  | [] => none
  | c :: rest =>
    match chooseMax score rest with
    | none => some c
    | some b => if score b < score c then some c else some b

/-- Reference model of the Constraint Solver Backend (spec §6): among all subsets
of the distinct decision variables, return one satisfying every compiled
constraint with maximal objective value, or `none` when no subset satisfies them. -/
def solveModel (dks : List AKey) (satFn : (AKey → Bool) → Bool)
    (score : List AKey → Nat) : Option (List AKey) :=
  chooseMax score (dks.sublists.filter (fun s => satFn (sigmaOf s)))

/-- Result-materializer record for one chosen key (lines 226-232). -/
def materialize (k : AKey) : Assignment :=
  ⟨k.sub_id, k.batch_id, k.slot, k.room_id, k.fac_id⟩

/-- The iteration keys of the variable-generation loops for one input and the
resolved timeslot ids. -/
def ksOf (inp : SchedInput) (timeslot_ids : List String) : List AKey :=
  buildKeys inp.subject_list inp.batch_list timeslot_ids inp.room_list inp.faculty_list

/-- The distinct decision variables (the keys of the `assign` dict). -/
def dksOf (inp : SchedInput) (timeslot_ids : List String) : List AKey :=
  dedupKeys (ksOf inp timeslot_ids)

/-- The compiled constraint set of one input, as a predicate on assignments. -/
def satFnOf (inp : SchedInput) (timeslot_ids : List String) : (AKey → Bool) → Bool :=
  fun σ => modelOK inp timeslot_ids (ksOf inp timeslot_ids) σ

/-- The compiled objective of one input, as a score on chosen variable subsets. -/
def scoreOf (inp : SchedInput) (timeslot_ids : List String) : List AKey → Nat :=
  fun s => objValue (dksOf inp timeslot_ids) inp.faculty_list inp.room_list inp.batch_list (sigmaOf s)

/-- Lines 43-235 after id validation: build the variable space, compile the
constraints and objective, solve, and materialize the chosen variables in dict
insertion order. -/
def generateCore (inp : SchedInput) (timeslot_ids : List String) : ScheduleResult :=
  match solveModel (dksOf inp timeslot_ids) (satFnOf inp timeslot_ids) (scoreOf inp timeslot_ids) with
  | some chosen =>
    ScheduleResult.ok (((dksOf inp timeslot_ids).filter (sigmaOf chosen)).map materialize)
  | none => ScheduleResult.unsat

/-- Source function `generate_schedule_from_inputs`: id indexing (which can raise `KeyError`),
then the pure model build + solve. -/
def generate_schedule_from_inputs (inp : SchedInput) : Except PyError ScheduleResult :=
  match checkIds inp with
  | Except.error e => Except.error e
  | Except.ok timeslot_ids => Except.ok (generateCore inp timeslot_ids)

/-! ## Concrete scenarios used by the claims -/

/-- A faculty member with no availability restriction and no preferences. -/
def plainFaculty (i : String) : Faculty :=
  { id := some i, available_days := [], available_slots := [], preferred_slots := [],
    no_consecutive_slots := false }

/-- A room with no affinity tags. -/
def plainRoom (i : String) (cap : Nat) : Room :=
  { id := some i, capacity := cap, room_affinity := [] }

/-- A plain lecture batch. -/
def plainBatch (i : String) (count : Nat) : Batch :=
  { id := some i, branch_id := some "cs", track_code := some "tpp", student_count := count }

/-- Scenario of C1: one lab subject of duration 2, one batch, one room, one
faculty, three ordered slots. -/
def c1Input : SchedInput :=
  { faculty_list := [plainFaculty "f1"],
    room_list := [plainRoom "r1" 50],
    subject_list := [{ id := some "sub1", subject_type := "lab", duration := 2,
                       requires_continuous_slots := true }],
    batch_list := [plainBatch "b1" 30],
    timeslot_list := [⟨some "s1"⟩, ⟨some "s2"⟩, ⟨some "s3"⟩],
    fixed_assignments := [] }

/-- Scenario of C2: one non-lab subject, batch of 60 students, room of capacity
50, one faculty, two slots. -/
def c2Input : SchedInput :=
  { faculty_list := [plainFaculty "f1"],
    room_list := [plainRoom "r1" 50],
    subject_list := [{ id := some "sub1", subject_type := "lecture", duration := 1,
                       requires_continuous_slots := false }],
    batch_list := [plainBatch "b1" 60],
    timeslot_list := [⟨some "t1"⟩, ⟨some "t2"⟩],
    fixed_assignments := [] }

/-- Scenario of C3: same as C2 but with 40 students. -/
def c3Input : SchedInput :=
  { faculty_list := [plainFaculty "f1"],
    room_list := [plainRoom "r1" 50],
    subject_list := [{ id := some "sub1", subject_type := "lecture", duration := 1,
                       requires_continuous_slots := false }],
    batch_list := [plainBatch "b1" 40],
    timeslot_list := [⟨some "t1"⟩, ⟨some "t2"⟩],
    fixed_assignments := [] }

/-- Scenario of C4: a well-formed single-slot instance plus one fixed-assignment
entry naming a subject id ("zz") for which no decision variable exists. -/
def c4Input : SchedInput :=
  { faculty_list := [plainFaculty "f1"],
    room_list := [plainRoom "r1" 50],
    subject_list := [{ id := some "sub1", subject_type := "lecture", duration := 1,
                       requires_continuous_slots := false }],
    batch_list := [plainBatch "b1" 40],
    timeslot_list := [⟨some "t1"⟩],
    fixed_assignments := [{ subject_id := some "zz", batch_id := some "b1", slot := "t1",
                            room_id := some "r1", faculty_id := some "f1" }] }

/-- The same instance without the dangling fixed entry. -/
def c4InputNoFix : SchedInput :=
  { c4Input with fixed_assignments := [] }

/-- Scenario of C5's counterexample: two room entries sharing the id "r1". -/
def c5Input : SchedInput :=
  { faculty_list := [plainFaculty "f1"],
    room_list := [plainRoom "r1" 50, plainRoom "r1" 80],
    subject_list := [{ id := some "sub1", subject_type := "lecture", duration := 1,
                       requires_continuous_slots := false }],
    batch_list := [plainBatch "b1" 40],
    timeslot_list := [⟨some "t1"⟩],
    fixed_assignments := [] }

/-- The dangling fixed-assignment entry of the C4 scenario. -/
def c4Fix : FixedAssignment :=
  { subject_id := some "zz", batch_id := some "b1", slot := "t1",
    room_id := some "r1", faculty_id := some "f1" }

/-- Scenario of C7's witness: the sole faculty is available only in slot "t1". -/
def c7Input : SchedInput :=
  { faculty_list := [{ id := some "f1", available_days := [], available_slots := ["t1"],
                       preferred_slots := [], no_consecutive_slots := false }],
    room_list := [plainRoom "r1" 50],
    subject_list := [{ id := some "sub1", subject_type := "lecture", duration := 1,
                       requires_continuous_slots := false }],
    batch_list := [plainBatch "b1" 10],
    timeslot_list := [⟨some "t1"⟩, ⟨some "t2"⟩],
    fixed_assignments := [] }

/-- Input whose only flaw is a faculty entry missing its id (C5's witness). -/
def missingIdInput : SchedInput :=
  { faculty_list := [{ id := none, available_days := [], available_slots := [],
                       preferred_slots := [], no_consecutive_slots := false }],
    room_list := [plainRoom "r1" 50],
    subject_list := [{ id := some "sub1", subject_type := "lecture", duration := 1,
                       requires_continuous_slots := false }],
    batch_list := [plainBatch "b1" 40],
    timeslot_list := [⟨some "t1"⟩],
    fixed_assignments := [] }

/-- The all-empty input (C9's witness). -/
def emptyInput : SchedInput :=
  { faculty_list := [], room_list := [], subject_list := [], batch_list := [],
    timeslot_list := [], fixed_assignments := [] }

/-- Expected first assignment of the C3 scenario. -/
def c3A1 : Assignment :=
  { subject_id := some "sub1", batch_id := some "b1", slot := "t1",
    room_id := some "r1", faculty_id := some "f1" }

/-- Expected second assignment of the C3 scenario. -/
def c3A2 : Assignment :=
  { subject_id := some "sub1", batch_id := some "b1", slot := "t2",
    room_id := some "r1", faculty_id := some "f1" }

/-- Expected sole assignment of the C4 scenario. -/
def c4A1 : Assignment :=
  { subject_id := some "sub1", batch_id := some "b1", slot := "t1",
    room_id := some "r1", faculty_id := some "f1" }

/-- Expected sole assignment of the C7 witness scenario. -/
def c7A1 : Assignment :=
  { subject_id := some "sub1", batch_id := some "b1", slot := "t1",
    room_id := some "r1", faculty_id := some "f1" }

/-- Some supplied entity misses its id (the condition under which indexing, or
timeslot-id extraction, raises `KeyError`). -/
def anyMissingId (inp : SchedInput) : Bool :=
  inp.faculty_list.any (fun f => f.id.isNone) ||
  inp.room_list.any (fun r => r.id.isNone) ||
  inp.subject_list.any (fun s => s.id.isNone) ||
  inp.batch_list.any (fun b => b.id.isNone) ||
  inp.timeslot_list.any (fun ts => ts.id.isNone)

/-- Every entity of the four indexed lists has an id. -/
def entityIdsPresent (inp : SchedInput) : Bool :=
  inp.faculty_list.all (fun f => f.id.isSome) &&
  inp.room_list.all (fun r => r.id.isSome) &&
  inp.subject_list.all (fun s => s.id.isSome) &&
  inp.batch_list.all (fun b => b.id.isSome)

/-- Two faculty records agreeing on every field except possibly `available_days`
and `no_consecutive_slots`. -/
def facultyVisibleEq (f g : Faculty) : Prop :=
  f.id = g.id ∧ f.available_slots = g.available_slots ∧ f.preferred_slots = g.preferred_slots

/-- Spec §4.4, stated from its words: "+1 if the slot is in that variable's
faculty's `preferred_slots`" (the variable's faculty being the catalog entry
carrying the variable's faculty id). -/
def specFacultyPreferredBonus (facs : List Faculty) (k : AKey) : Nat :=
  match facs.find? (fun f => decide (f.id = k.fac_id)) with
  | some f => if k.slot ∈ f.preferred_slots then 1 else 0
  | none => 0

/-- Spec §4.4, stated from its words: "+1 if the room's `room_affinity` set
contains the batch's branch id or track code". -/
def specRoomAffinityBonus (rooms : List Room) (batches : List Batch) (k : AKey) : Nat :=
  match rooms.find? (fun r => decide (r.id = k.room_id)),
        batches.find? (fun b => decide (b.id = k.batch_id)) with
  | some room, some batch =>
    if batch.branch_id.elim false (fun x => decide (x ∈ room.room_affinity)) ||
       batch.track_code.elim false (fun x => decide (x ∈ room.room_affinity)) then 1 else 0
  | _, _ => 0

/-- Base input of the C10 witness. -/
def c10Base : SchedInput :=
  { faculty_list := [],
    room_list := [plainRoom "r1" 50],
    subject_list := [{ id := some "sub1", subject_type := "lecture", duration := 1,
                       requires_continuous_slots := false }],
    batch_list := [plainBatch "b1" 40],
    timeslot_list := [⟨some "t1"⟩],
    fixed_assignments := [] }

/-- A faculty entry teaching on Monday with the no-consecutive flag set. -/
def c10FacA : Faculty :=
  { id := some "f1", available_days := ["mon"], available_slots := [],
    preferred_slots := [], no_consecutive_slots := true }

/-- The same faculty entry with different `available_days`/`no_consecutive_slots`. -/
def c10FacB : Faculty :=
  { id := some "f1", available_days := ["tue", "wed"], available_slots := [],
    preferred_slots := [], no_consecutive_slots := false }

/-! ## Helper lemmas -/

theorem two_le_countP {α : Type} (p : α → Bool) {l : List α} {a b : α}
    (ha : a ∈ l) (hb : b ∈ l) (hab : a ≠ b) (hpa : p a = true) (hpb : p b = true) :
    2 ≤ l.countP p := by
  induction l with
  | nil => cases ha
  | cons x xs ih =>
    rw [List.countP_cons]
    rcases List.mem_cons.mp ha with rfl | ha'
    · have hbx : b ∈ xs := by
        rcases List.mem_cons.mp hb with rfl | hmem
        · exact absurd rfl hab
        · exact hmem
      have h1 : 0 < xs.countP p := List.countP_pos_iff.mpr ⟨b, hbx, hpb⟩
      simp only [hpa, if_true]
      omega
    · rcases List.mem_cons.mp hb with rfl | hb'
      · have h1 : 0 < xs.countP p := List.countP_pos_iff.mpr ⟨a, ha', hpa⟩
        simp only [hpb, if_true]
        omega
      · have := ih ha' hb'
        omega

theorem mem_buildKeys {subs : List Subject} {batches : List Batch} {ts : List String}
    {rooms : List Room} {facs : List Faculty} {k : AKey} :
    k ∈ buildKeys subs batches ts rooms facs ↔
      ∃ sub ∈ subs, ∃ batch ∈ batches, ∃ slot ∈ ts, ∃ room ∈ rooms, ∃ fac ∈ facs,
        k = ⟨sub.id, batch.id, slot, room.id, fac.id⟩ := by
  simp only [buildKeys, List.mem_flatMap, List.mem_map]
  constructor
  · rintro ⟨sub, hs, batch, hb, slot, hsl, room, hr, fac, hf, rfl⟩
    exact ⟨sub, hs, batch, hb, slot, hsl, room, hr, fac, hf, rfl⟩
  · rintro ⟨sub, hs, batch, hb, slot, hsl, room, hr, fac, hf, rfl⟩
    exact ⟨sub, hs, batch, hb, slot, hsl, room, hr, fac, hf, rfl⟩

theorem mem_ksOf {inp : SchedInput} {ts : List String} {k : AKey} :
    k ∈ ksOf inp ts ↔
      ∃ sub ∈ inp.subject_list, ∃ batch ∈ inp.batch_list, ∃ slot ∈ ts,
        ∃ room ∈ inp.room_list, ∃ fac ∈ inp.faculty_list,
          k = ⟨sub.id, batch.id, slot, room.id, fac.id⟩ :=
  mem_buildKeys

theorem mem_bsProduct {subs : List Subject} {rooms : List Room} {facs : List Faculty}
    {batch_id : Option String} {slot : String} {k : AKey} :
    k ∈ bsProduct subs rooms facs batch_id slot ↔
      ∃ sub ∈ subs, ∃ room ∈ rooms, ∃ fac ∈ facs,
        k = ⟨sub.id, batch_id, slot, room.id, fac.id⟩ := by
  simp only [bsProduct, List.mem_flatMap, List.mem_map]
  constructor
  · rintro ⟨sub, hs, room, hr, fac, hf, rfl⟩
    exact ⟨sub, hs, room, hr, fac, hf, rfl⟩
  · rintro ⟨sub, hs, room, hr, fac, hf, rfl⟩
    exact ⟨sub, hs, room, hr, fac, hf, rfl⟩

theorem mem_fsProduct {subs : List Subject} {batches : List Batch} {rooms : List Room}
    {fac_id : Option String} {slot : String} {k : AKey} :
    k ∈ fsProduct subs batches rooms fac_id slot ↔
      ∃ sub ∈ subs, ∃ batch ∈ batches, ∃ room ∈ rooms,
        k = ⟨sub.id, batch.id, slot, room.id, fac_id⟩ := by
  simp only [fsProduct, List.mem_flatMap, List.mem_map]
  constructor
  · rintro ⟨sub, hs, batch, hb, room, hr, rfl⟩
    exact ⟨sub, hs, batch, hb, room, hr, rfl⟩
  · rintro ⟨sub, hs, batch, hb, room, hr, rfl⟩
    exact ⟨sub, hs, batch, hb, room, hr, rfl⟩

theorem mem_rsProduct {subs : List Subject} {batches : List Batch} {facs : List Faculty}
    {room_id : Option String} {slot : String} {k : AKey} :
    k ∈ rsProduct subs batches facs room_id slot ↔
      ∃ sub ∈ subs, ∃ batch ∈ batches, ∃ fac ∈ facs,
        k = ⟨sub.id, batch.id, slot, room_id, fac.id⟩ := by
  simp only [rsProduct, List.mem_flatMap, List.mem_map]
  constructor
  · rintro ⟨sub, hs, batch, hb, fac, hf, rfl⟩
    exact ⟨sub, hs, batch, hb, fac, hf, rfl⟩
  · rintro ⟨sub, hs, batch, hb, fac, hf, rfl⟩
    exact ⟨sub, hs, batch, hb, fac, hf, rfl⟩

theorem mem_dedupFrom {l : List AKey} : ∀ {seen : List AKey} {x : AKey},
    x ∈ dedupFrom seen l ↔ x ∈ l ∧ x ∉ seen := by
  induction l with
  | nil => intro seen x; simp [dedupFrom]
  | cons k rest ih =>
    intro seen x
    by_cases hk : k ∈ seen
    · simp only [dedupFrom, if_pos hk, ih, List.mem_cons]
      constructor
      · rintro ⟨h1, h2⟩
        exact ⟨Or.inr h1, h2⟩
      · rintro ⟨h1 | h1, h2⟩
        · subst h1; exact absurd hk h2
        · exact ⟨h1, h2⟩
    · simp only [dedupFrom, if_neg hk, List.mem_cons, ih]
      by_cases hxk : x = k
      · subst hxk
        simp [hk]
      · constructor
        · rintro (h1 | ⟨h1, h2⟩)
          · exact absurd h1 hxk
          · exact ⟨Or.inr h1, fun hmem => h2 (Or.inr hmem)⟩
        · rintro ⟨h1 | h1, h2⟩
          · exact absurd h1 hxk
          · exact Or.inr ⟨h1, fun hmem => hmem.elim hxk h2⟩

theorem nodup_dedupFrom (l : List AKey) : ∀ (seen : List AKey), (dedupFrom seen l).Nodup := by
  induction l with
  | nil => intro seen; simp [dedupFrom]
  | cons k rest ih =>
    intro seen
    by_cases hk : k ∈ seen
    · simpa [dedupFrom, if_pos hk] using ih seen
    · rw [dedupFrom, if_neg hk]
      refine List.nodup_cons.mpr ⟨fun hmem => ?_, ih (k :: seen)⟩
      exact (mem_dedupFrom.mp hmem).2 (List.mem_cons_self k seen)

theorem mem_dedupKeys {l : List AKey} {x : AKey} : x ∈ dedupKeys l ↔ x ∈ l := by
  simp [dedupKeys, mem_dedupFrom]

theorem nodup_dedupKeys (l : List AKey) : (dedupKeys l).Nodup :=
  nodup_dedupFrom l []

theorem chooseMax_mem {α : Type} {score : α → Nat} :
    ∀ {l : List α} {c : α}, chooseMax score l = some c → c ∈ l := by
  intro l
  induction l with
  | nil => intro c h; simp [chooseMax] at h
  | cons x xs ih =>
    intro c h
    cases hx : chooseMax score xs with
    | none =>
      simp only [chooseMax, hx] at h
      injection h with h
      subst h
      exact List.mem_cons_self x xs
    | some b =>
      simp only [chooseMax, hx] at h
      by_cases hs : score b < score x
      · rw [if_pos hs] at h
        injection h with h
        subst h
        exact List.mem_cons_self x xs
      · rw [if_neg hs] at h
        injection h with h
        subst h
        exact List.mem_cons_of_mem x (ih hx)

theorem solveModel_sat {dks : List AKey} {satFn : (AKey → Bool) → Bool}
    {score : List AKey → Nat} {chosen : List AKey}
    (h : solveModel dks satFn score = some chosen) : satFn (sigmaOf chosen) = true := by
  simp only [solveModel] at h
  exact (List.mem_filter.mp (chooseMax_mem h)).2

/-- Destructure a successful call: the resolved slots, the solver's chosen subset,
and the materialized list. -/
theorem generate_ok_elim {inp : SchedInput} {l : List Assignment}
    (h : generate_schedule_from_inputs inp = Except.ok (ScheduleResult.ok l)) :
    ∃ ts chosen,
      checkIds inp = Except.ok ts ∧
      solveModel (dksOf inp ts) (satFnOf inp ts) (scoreOf inp ts) = some chosen ∧
      l = ((dksOf inp ts).filter (sigmaOf chosen)).map materialize := by
  unfold generate_schedule_from_inputs at h
  cases hc : checkIds inp with
  | error e => rw [hc] at h; exact absurd h (by simp)
  | ok ts =>
    rw [hc] at h
    have h2 : generateCore inp ts = ScheduleResult.ok l := by injection h
    unfold generateCore at h2
    cases hs : solveModel (dksOf inp ts) (satFnOf inp ts) (scoreOf inp ts) with
    | none => rw [hs] at h2; exact absurd h2 (by simp)
    | some chosen =>
      rw [hs] at h2
      injection h2 with h3
      exact ⟨ts, chosen, rfl, hs, h3.symm⟩

theorem modelOK_split {inp : SchedInput} {ts : List String} {ks : List AKey} {σ : AKey → Bool}
    (h : modelOK inp ts ks σ = true) :
    batchExclusiveOK ks σ inp.subject_list inp.batch_list ts inp.room_list inp.faculty_list = true ∧
    facultyExclusiveOK ks σ inp.subject_list inp.batch_list ts inp.room_list inp.faculty_list = true ∧
    roomExclusiveOK ks σ inp.subject_list inp.batch_list ts inp.room_list inp.faculty_list = true ∧
    availabilityOK ks σ inp.faculty_list inp.subject_list inp.batch_list ts inp.room_list = true ∧
    capacityOK ks σ inp.room_list inp.subject_list inp.batch_list ts inp.faculty_list = true ∧
    continuityOK ks σ inp.subject_list inp.batch_list ts inp.room_list inp.faculty_list = true ∧
    fixedOK ks σ inp.fixed_assignments = true := by
  have hx := h
  simp only [modelOK, Bool.and_eq_true] at hx
  exact ⟨hx.1.1.1.1.1.1, hx.1.1.1.1.1.2, hx.1.1.1.1.2, hx.1.1.1.2, hx.1.1.2, hx.1.2, hx.2⟩

theorem modelOK_batchSum {inp : SchedInput} {ts : List String} {ks : List AKey} {σ : AKey → Bool}
    (h : modelOK inp ts ks σ = true) :
    ∀ batch ∈ inp.batch_list, ∀ slot ∈ ts,
      batchSlotSum ks σ inp.subject_list inp.room_list inp.faculty_list batch.id slot ≤ 1 := by
  intro batch hb slot hs
  have h1 := (modelOK_split h).1
  simp only [batchExclusiveOK, List.all_eq_true, decide_eq_true_eq] at h1
  exact h1 batch hb slot hs

theorem modelOK_facSum {inp : SchedInput} {ts : List String} {ks : List AKey} {σ : AKey → Bool}
    (h : modelOK inp ts ks σ = true) :
    ∀ fac ∈ inp.faculty_list, ∀ slot ∈ ts,
      facSlotSum ks σ inp.subject_list inp.batch_list inp.room_list fac.id slot ≤ 1 := by
  intro fac hf slot hs
  have h1 := (modelOK_split h).2.1
  simp only [facultyExclusiveOK, List.all_eq_true, decide_eq_true_eq] at h1
  exact h1 fac hf slot hs

theorem modelOK_roomSum {inp : SchedInput} {ts : List String} {ks : List AKey} {σ : AKey → Bool}
    (h : modelOK inp ts ks σ = true) :
    ∀ room ∈ inp.room_list, ∀ slot ∈ ts,
      roomSlotSum ks σ inp.subject_list inp.batch_list inp.faculty_list room.id slot ≤ 1 := by
  intro room hr slot hs
  have h1 := (modelOK_split h).2.2.1
  simp only [roomExclusiveOK, List.all_eq_true, decide_eq_true_eq] at h1
  exact h1 room hr slot hs

theorem modelOK_availability {inp : SchedInput} {ts : List String} {ks : List AKey} {σ : AKey → Bool}
    (h : modelOK inp ts ks σ = true) :
    ∀ fac ∈ inp.faculty_list, ∀ sub ∈ inp.subject_list, ∀ batch ∈ inp.batch_list,
      ∀ slot ∈ ts, fac.available_slots ≠ [] → slot ∉ fac.available_slots →
      ∀ room ∈ inp.room_list,
        hasKey ks ⟨sub.id, batch.id, slot, room.id, fac.id⟩ = true →
        σ ⟨sub.id, batch.id, slot, room.id, fac.id⟩ = false := by
  intro fac hf sub hsu batch hb slot hsl hne hout room hr hk
  have h1 := (modelOK_split h).2.2.2.1
  simp only [availabilityOK, List.all_eq_true] at h1
  have h2 := h1 fac hf sub hsu batch hb slot hsl
  rw [if_pos ⟨hne, hout⟩] at h2
  simp only [List.all_eq_true] at h2
  have h3 := h2 room hr
  simpa [hk] using h3

theorem hasKey_of_mem {ks : List AKey} {k : AKey} (h : k ∈ ks) : hasKey ks k = true := by
  simp [hasKey, h]

theorem no_batch_clash {inp : SchedInput} {ts : List String} {σ : AKey → Bool}
    (hsat : modelOK inp ts (ksOf inp ts) σ = true) {k1 k2 : AKey}
    (h1 : k1 ∈ ksOf inp ts) (h2 : k2 ∈ ksOf inp ts)
    (hσ1 : σ k1 = true) (hσ2 : σ k2 = true) (hne : k1 ≠ k2)
    (hbatch : k1.batch_id = k2.batch_id) (hslot : k1.slot = k2.slot) : False := by
  obtain ⟨sub1, hs1, batch1, hb1, slot1, hsl1, room1, hr1, fac1, hf1, hk1⟩ := mem_ksOf.mp h1
  obtain ⟨sub2, hs2, batch2, hb2, slot2, hsl2, room2, hr2, fac2, hf2, hk2⟩ := mem_ksOf.mp h2
  have hsum := modelOK_batchSum hsat batch1 hb1 slot1 hsl1
  have hm1 : k1 ∈ bsProduct inp.subject_list inp.room_list inp.faculty_list batch1.id slot1 :=
    mem_bsProduct.mpr ⟨sub1, hs1, room1, hr1, fac1, hf1, hk1⟩
  have hbid : batch2.id = batch1.id := by rw [hk1] at hbatch; rw [hk2] at hbatch; exact hbatch.symm
  have hsid : slot2 = slot1 := by rw [hk1] at hslot; rw [hk2] at hslot; exact hslot.symm
  have hm2 : k2 ∈ bsProduct inp.subject_list inp.room_list inp.faculty_list batch1.id slot1 :=
    mem_bsProduct.mpr ⟨sub2, hs2, room2, hr2, fac2, hf2, by rw [hk2, hbid, hsid]⟩
  have hp1 : (hasKey (ksOf inp ts) k1 && σ k1) = true := by
    rw [hasKey_of_mem h1, hσ1]; rfl
  have hp2 : (hasKey (ksOf inp ts) k2 && σ k2) = true := by
    rw [hasKey_of_mem h2, hσ2]; rfl
  have h2le := two_le_countP (fun k => hasKey (ksOf inp ts) k && σ k) hm1 hm2 hne hp1 hp2
  simp only [batchSlotSum] at hsum
  omega

theorem no_fac_clash {inp : SchedInput} {ts : List String} {σ : AKey → Bool}
    (hsat : modelOK inp ts (ksOf inp ts) σ = true) {k1 k2 : AKey}
    (h1 : k1 ∈ ksOf inp ts) (h2 : k2 ∈ ksOf inp ts)
    (hσ1 : σ k1 = true) (hσ2 : σ k2 = true) (hne : k1 ≠ k2)
    (hfac : k1.fac_id = k2.fac_id) (hslot : k1.slot = k2.slot) : False := by
  obtain ⟨sub1, hs1, batch1, hb1, slot1, hsl1, room1, hr1, fac1, hf1, hk1⟩ := mem_ksOf.mp h1
  obtain ⟨sub2, hs2, batch2, hb2, slot2, hsl2, room2, hr2, fac2, hf2, hk2⟩ := mem_ksOf.mp h2
  have hsum := modelOK_facSum hsat fac1 hf1 slot1 hsl1
  have hm1 : k1 ∈ fsProduct inp.subject_list inp.batch_list inp.room_list fac1.id slot1 :=
    mem_fsProduct.mpr ⟨sub1, hs1, batch1, hb1, room1, hr1, hk1⟩
  have hfid : fac2.id = fac1.id := by rw [hk1] at hfac; rw [hk2] at hfac; exact hfac.symm
  have hsid : slot2 = slot1 := by rw [hk1] at hslot; rw [hk2] at hslot; exact hslot.symm
  have hm2 : k2 ∈ fsProduct inp.subject_list inp.batch_list inp.room_list fac1.id slot1 :=
    mem_fsProduct.mpr ⟨sub2, hs2, batch2, hb2, room2, hr2, by rw [hk2, hfid, hsid]⟩
  have hp1 : (hasKey (ksOf inp ts) k1 && σ k1) = true := by
    rw [hasKey_of_mem h1, hσ1]; rfl
  have hp2 : (hasKey (ksOf inp ts) k2 && σ k2) = true := by
    rw [hasKey_of_mem h2, hσ2]; rfl
  have h2le := two_le_countP (fun k => hasKey (ksOf inp ts) k && σ k) hm1 hm2 hne hp1 hp2
  simp only [facSlotSum] at hsum
  omega

theorem no_room_clash {inp : SchedInput} {ts : List String} {σ : AKey → Bool}
    (hsat : modelOK inp ts (ksOf inp ts) σ = true) {k1 k2 : AKey}
    (h1 : k1 ∈ ksOf inp ts) (h2 : k2 ∈ ksOf inp ts)
    (hσ1 : σ k1 = true) (hσ2 : σ k2 = true) (hne : k1 ≠ k2)
    (hroom : k1.room_id = k2.room_id) (hslot : k1.slot = k2.slot) : False := by
  obtain ⟨sub1, hs1, batch1, hb1, slot1, hsl1, room1, hr1, fac1, hf1, hk1⟩ := mem_ksOf.mp h1
  obtain ⟨sub2, hs2, batch2, hb2, slot2, hsl2, room2, hr2, fac2, hf2, hk2⟩ := mem_ksOf.mp h2
  have hsum := modelOK_roomSum hsat room1 hr1 slot1 hsl1
  have hm1 : k1 ∈ rsProduct inp.subject_list inp.batch_list inp.faculty_list room1.id slot1 :=
    mem_rsProduct.mpr ⟨sub1, hs1, batch1, hb1, fac1, hf1, hk1⟩
  have hrid : room2.id = room1.id := by rw [hk1] at hroom; rw [hk2] at hroom; exact hroom.symm
  have hsid : slot2 = slot1 := by rw [hk1] at hslot; rw [hk2] at hslot; exact hslot.symm
  have hm2 : k2 ∈ rsProduct inp.subject_list inp.batch_list inp.faculty_list room1.id slot1 :=
    mem_rsProduct.mpr ⟨sub2, hs2, batch2, hb2, fac2, hf2, by rw [hk2, hrid, hsid]⟩
  have hp1 : (hasKey (ksOf inp ts) k1 && σ k1) = true := by
    rw [hasKey_of_mem h1, hσ1]; rfl
  have hp2 : (hasKey (ksOf inp ts) k2 && σ k2) = true := by
    rw [hasKey_of_mem h2, hσ2]; rfl
  have h2le := two_le_countP (fun k => hasKey (ksOf inp ts) k && σ k) hm1 hm2 hne hp1 hp2
  simp only [roomSlotSum] at hsum
  omega

theorem pairwise_result {inp : SchedInput} {ts : List String} {chosen : List AKey}
    (P : Assignment → Assignment → Prop)
    (hP : ∀ k1 k2 : AKey, k1 ∈ ksOf inp ts → k2 ∈ ksOf inp ts →
      sigmaOf chosen k1 = true → sigmaOf chosen k2 = true → k1 ≠ k2 →
      P (materialize k1) (materialize k2)) :
    List.Pairwise P (((dksOf inp ts).filter (sigmaOf chosen)).map materialize) := by
  rw [List.pairwise_map]
  refine List.Pairwise.imp_of_mem ?_ (List.Nodup.filter _ (nodup_dedupKeys _))
  intro k1 k2 hm1 hm2 hne
  obtain ⟨hk1, hσ1⟩ := List.mem_filter.mp hm1
  obtain ⟨hk2, hσ2⟩ := List.mem_filter.mp hm2
  exact hP k1 k2 (mem_dedupKeys.mp hk1) (mem_dedupKeys.mp hk2) hσ1 hσ2 hne

theorem availability_forced {inp : SchedInput} {ts : List String} {σ : AKey → Bool}
    (hsat : modelOK inp ts (ksOf inp ts) σ = true) :
    ∀ f ∈ inp.faculty_list, f.available_slots ≠ [] →
    ∀ k ∈ ksOf inp ts, k.fac_id = f.id → k.slot ∉ f.available_slots → σ k = false := by
  intro f hf hne k hk hfid hout
  obtain ⟨sub1, hs1, batch1, hb1, slot1, hsl1, room1, hr1, fac1, hf1, hk1⟩ := mem_ksOf.mp hk
  have hfacid : fac1.id = f.id := by rw [hk1] at hfid; exact hfid
  have hkey : k = ⟨sub1.id, batch1.id, slot1, room1.id, f.id⟩ := by rw [hk1, hfacid]
  have hout1 : slot1 ∉ f.available_slots := by
    have hslotk : k.slot = slot1 := by rw [hk1]
    rw [hslotk] at hout
    exact hout
  have hkmem : hasKey (ksOf inp ts) ⟨sub1.id, batch1.id, slot1, room1.id, f.id⟩ = true := by
    rw [← hkey]
    exact hasKey_of_mem hk
  have hres := modelOK_availability hsat f hf sub1 hs1 batch1 hb1 slot1 hsl1 hne hout1 room1 hr1 hkmem
  rw [hkey]
  exact hres

/-! ## Claim theorems -/

/-- C1 (code-bug evidence): on the lab scenario — one lab subject of duration 2,
one batch, one room, one faculty, three ordered slots s1,s2,s3 — the call returns
status "ok" with an *empty* assignment list, and the only assignment satisfying
the compiled constraints is the all-false one.  The continuity encoding treats
every occupied slot as a lab start: the variable at s3 is forced to 0 (its run
overflows), the start-implication at s2 then forces s2 to 0, and the one at s1
forces s1 to 0, so the lab can never occupy (s1,s2) or (s2,s3) as the claim (and
the source's own docstring about scheduling labs over continuous slots) require. -/
theorem C1_lab_scenario_all_zero :
    generate_schedule_from_inputs c1Input = Except.ok (ScheduleResult.ok []) ∧
    ((dksOf c1Input ["s1", "s2", "s3"]).sublists.filter
      (fun s => satFnOf c1Input ["s1", "s2", "s3"] (sigmaOf s))) = [[]] := by
  constructor
  · decide
  · decide

/-- C2 counterexample: on the over-capacity scenario (student_count 60 against
capacity 50) the call does not return `{"status": "unsat"}`. -/
theorem C2_capacity_not_unsat :
    generate_schedule_from_inputs c2Input ≠ Except.ok ScheduleResult.unsat := by
  decide

/-- C2 (amended): on the over-capacity scenario the capacity rule forces every
decision variable to 0, so the all-false assignment is the unique satisfying one;
the backend therefore reports it as optimal and the call returns status "ok" with
an empty assignment list (not "unsat"). -/
theorem C2_capacity_ok_empty :
    generate_schedule_from_inputs c2Input = Except.ok (ScheduleResult.ok []) ∧
    ((dksOf c2Input ["t1", "t2"]).sublists.filter
      (fun s => satFnOf c2Input ["t1", "t2"] (sigmaOf s))) = [[]] := by
  constructor
  · decide
  · decide

/-- C3 counterexample: on the feasible one-subject scenario the returned
assignment list has two entries, not exactly one. -/
theorem C3_not_single_assignment :
    generate_schedule_from_inputs c3Input = Except.ok (ScheduleResult.ok [c3A1, c3A2]) ∧
    [c3A1, c3A2].length ≠ 1 := by
  constructor
  · decide
  · decide

/-- C3 (amended): on the feasible one-subject scenario (student_count 40,
capacity 50, two slots) the call returns status "ok" with exactly two
assignments, one in each slot — no constraint limits a subject to a single
session and the objective maximizes the number of assignments. -/
theorem C3_two_assignments :
    generate_schedule_from_inputs c3Input = Except.ok (ScheduleResult.ok [c3A1, c3A2]) ∧
    c3A1.slot = "t1" ∧ c3A2.slot = "t2" := by
  refine ⟨by decide, rfl, rfl⟩

/-- C6: in every result returned with status "ok", the assignment list contains
at most one assignment per (batch, slot) pair, at most one per (faculty, slot)
pair, and at most one per (room, slot) pair. -/
theorem C6_exclusive_pairs (inp : SchedInput) (l : List Assignment)
    (h : generate_schedule_from_inputs inp = Except.ok (ScheduleResult.ok l)) :
    List.Pairwise (fun a b : Assignment => ¬(a.batch_id = b.batch_id ∧ a.slot = b.slot)) l ∧
    List.Pairwise (fun a b : Assignment => ¬(a.faculty_id = b.faculty_id ∧ a.slot = b.slot)) l ∧
    List.Pairwise (fun a b : Assignment => ¬(a.room_id = b.room_id ∧ a.slot = b.slot)) l := by
  obtain ⟨ts, chosen, hc, hs, hl⟩ := generate_ok_elim h
  have hsat : modelOK inp ts (ksOf inp ts) (sigmaOf chosen) = true := solveModel_sat hs
  subst hl
  refine ⟨pairwise_result _ ?_, pairwise_result _ ?_, pairwise_result _ ?_⟩
  · intro k1 k2 h1 h2 hσ1 hσ2 hne
    rintro ⟨hb, hsl⟩
    exact no_batch_clash hsat h1 h2 hσ1 hσ2 hne hb hsl
  · intro k1 k2 h1 h2 hσ1 hσ2 hne
    rintro ⟨hf, hsl⟩
    exact no_fac_clash hsat h1 h2 hσ1 hσ2 hne hf hsl
  · intro k1 k2 h1 h2 hσ1 hσ2 hne
    rintro ⟨hr, hsl⟩
    exact no_room_clash hsat h1 h2 hσ1 hσ2 hne hr hsl

/-- C6 witness: the theorem applied to the concrete two-slot scenario. -/
theorem C6_exclusive_pairs_witness :
    List.Pairwise (fun a b : Assignment => ¬(a.batch_id = b.batch_id ∧ a.slot = b.slot)) [c3A1, c3A2] ∧
    List.Pairwise (fun a b : Assignment => ¬(a.faculty_id = b.faculty_id ∧ a.slot = b.slot)) [c3A1, c3A2] ∧
    List.Pairwise (fun a b : Assignment => ¬(a.room_id = b.room_id ∧ a.slot = b.slot)) [c3A1, c3A2] :=
  C6_exclusive_pairs c3Input [c3A1, c3A2] (by decide)

/-- C7: no result assignment pairs a faculty with a non-empty `available_slots`
with a slot outside that list, and — at the model level — every decision variable
referencing such a faculty and such a slot is constrained to 0 in every
satisfying assignment. -/
theorem C7_availability :
    (∀ (inp : SchedInput) (ts : List String) (σ : AKey → Bool),
      modelOK inp ts (ksOf inp ts) σ = true →
      ∀ f ∈ inp.faculty_list, f.available_slots ≠ [] →
      ∀ k ∈ ksOf inp ts, k.fac_id = f.id → k.slot ∉ f.available_slots → σ k = false) ∧
    (∀ (inp : SchedInput) (l : List Assignment),
      generate_schedule_from_inputs inp = Except.ok (ScheduleResult.ok l) →
      ∀ a ∈ l, ∀ f ∈ inp.faculty_list, f.id = a.faculty_id →
      f.available_slots ≠ [] → a.slot ∈ f.available_slots) := by
  constructor
  · intro inp ts σ hsat
    exact availability_forced hsat
  · intro inp l h a ha f hf hfid hne
    obtain ⟨ts, chosen, hc, hs, hl⟩ := generate_ok_elim h
    have hsat : modelOK inp ts (ksOf inp ts) (sigmaOf chosen) = true := solveModel_sat hs
    subst hl
    obtain ⟨k, hkmem, hkeq⟩ := List.mem_map.mp ha
    obtain ⟨hkd, hσ⟩ := List.mem_filter.mp hkmem
    subst hkeq
    by_contra hout
    have hforced := availability_forced hsat f hf hne k (mem_dedupKeys.mp hkd)
      (by exact hfid.symm) hout
    rw [hforced] at hσ
    exact Bool.false_ne_true hσ

/-- C7 witness: the theorem applied to the scenario whose faculty is available
only in slot "t1". -/
theorem C7_availability_witness :
    "t1" ∈ (Faculty.mk (some "f1") [] ["t1"] [] false).available_slots :=
  C7_availability.2 c7Input [c7A1] (by decide) c7A1 (by decide)
    (Faculty.mk (some "f1") [] ["t1"] [] false) (by decide) (by decide) (by decide)

theorem generate_congr {inp inp' : SchedInput}
    (hc : checkIds inp = checkIds inp')
    (hd : ∀ ts, checkIds inp = Except.ok ts → dksOf inp ts = dksOf inp' ts)
    (hsat : ∀ ts, checkIds inp = Except.ok ts → satFnOf inp ts = satFnOf inp' ts)
    (hsc : ∀ ts, checkIds inp = Except.ok ts → scoreOf inp ts = scoreOf inp' ts) :
    generate_schedule_from_inputs inp = generate_schedule_from_inputs inp' := by
  unfold generate_schedule_from_inputs
  rw [← hc]
  cases hcc : checkIds inp with
  | error e => rfl
  | ok ts =>
    show Except.ok (generateCore inp ts) = Except.ok (generateCore inp' ts)
    unfold generateCore
    rw [hd ts hcc, hsat ts hcc, hsc ts hcc]

theorem fixedOK_append_dangling {ks : List AKey} {σ : AKey → Bool}
    {fixed : List FixedAssignment} {f : FixedAssignment}
    (h : hasKey ks (fixKey f) = false) :
    fixedOK ks σ (fixed ++ [f]) = fixedOK ks σ fixed := by
  simp [fixedOK, List.all_append, h]

theorem modelOK_fixed_congr (inp : SchedInput) (ts : List String) (ks : List AKey)
    (σ : AKey → Bool) {fx fx' : List FixedAssignment}
    (h : fixedOK ks σ fx = fixedOK ks σ fx') :
    modelOK { inp with fixed_assignments := fx } ts ks σ =
    modelOK { inp with fixed_assignments := fx' } ts ks σ := by
  dsimp only [modelOK]
  rw [h]

theorem indexFrom_error {α : Type} (getKey : α → Option String) :
    ∀ {l : List α}, (∃ x ∈ l, getKey x = none) →
    ∀ acc, indexFrom getKey acc l = Except.error PyError.keyError := by
  intro l
  induction l with
  | nil =>
    rintro ⟨x, hx, _⟩
    cases hx
  | cons a rest ih =>
    rintro ⟨x, hx, hnone⟩ acc
    cases hk : getKey a with
    | none => simp [indexFrom, hk]
    | some k =>
      rcases List.mem_cons.mp hx with rfl | hx'
      · rw [hk] at hnone; cases hnone
      · simp only [indexFrom, hk]
        exact ih ⟨x, hx', hnone⟩ _

theorem indexFrom_ok {α : Type} (getKey : α → Option String) :
    ∀ {l : List α}, (∀ x ∈ l, (getKey x).isSome = true) →
    ∀ acc, ∃ m, indexFrom getKey acc l = Except.ok m := by
  intro l
  induction l with
  | nil => exact fun _ acc => ⟨acc, rfl⟩
  | cons a rest ih =>
    intro h acc
    cases hk : getKey a with
    | none =>
      have := h a (List.mem_cons_self a rest)
      rw [hk] at this
      cases this
    | some k =>
      obtain ⟨m, hm⟩ := ih (fun x hx => h x (List.mem_cons_of_mem a hx)) (assocInsert acc k a)
      exact ⟨m, by simp only [indexFrom, hk]; exact hm⟩

theorem extract_error :
    ∀ {l : List TimeSlot}, (∃ x ∈ l, x.id = none) →
    extractTimeslotIds l = Except.error PyError.keyError := by
  intro l
  induction l with
  | nil =>
    rintro ⟨x, hx, _⟩
    cases hx
  | cons a rest ih =>
    rintro ⟨x, hx, hnone⟩
    cases hk : a.id with
    | none => simp [extractTimeslotIds, hk]
    | some i =>
      rcases List.mem_cons.mp hx with rfl | hx'
      · rw [hk] at hnone; cases hnone
      · simp only [extractTimeslotIds, hk]
        rw [ih ⟨x, hx', hnone⟩]
        rfl

theorem extract_ok :
    ∀ {l : List TimeSlot}, (∀ x ∈ l, x.id.isSome = true) →
    ∃ m, extractTimeslotIds l = Except.ok m := by
  intro l
  induction l with
  | nil => exact fun _ => ⟨[], rfl⟩
  | cons a rest ih =>
    intro h
    cases hk : a.id with
    | none =>
      have := h a (List.mem_cons_self a rest)
      rw [hk] at this
      cases this
    | some i =>
      obtain ⟨m, hm⟩ := ih (fun x hx => h x (List.mem_cons_of_mem a hx))
      exact ⟨i :: m, by simp only [extractTimeslotIds, hk, hm]; rfl⟩

theorem isEmpty_false_of_mem {α : Type} {l : List α} {x : α} (h : x ∈ l) :
    l.isEmpty = false := by
  cases l with
  | nil => cases h
  | cons a rest => rfl

theorem index_objects_error {α : Type} (getKey : α → Option String) {l : List α}
    (h : ∃ x ∈ l, getKey x = none) :
    index_objects getKey l = Except.error PyError.keyError :=
  indexFrom_error getKey h []

theorem index_objects_ok {α : Type} (getKey : α → Option String) {l : List α}
    (h : ∀ x ∈ l, (getKey x).isSome = true) :
    ∃ m, index_objects getKey l = Except.ok m :=
  indexFrom_ok getKey h []

theorem guard_index_error {α : Type} (getKey : α → Option String) {l : List α}
    (h : ∃ x ∈ l, getKey x = none) :
    (if l.isEmpty then Except.ok [] else index_objects getKey l) =
      Except.error PyError.keyError := by
  obtain ⟨x, hx, hxn⟩ := h
  rw [if_neg (by simp [isEmpty_false_of_mem hx])]
  exact index_objects_error getKey ⟨x, hx, hxn⟩

theorem guard_index_ok {α : Type} (getKey : α → Option String) {l : List α}
    (h : ¬ ∃ x ∈ l, getKey x = none) :
    ∃ m, (if l.isEmpty then Except.ok [] else index_objects getKey l) = Except.ok m := by
  by_cases he : l.isEmpty
  · exact ⟨[], if_pos he⟩
  · have hall : ∀ x ∈ l, (getKey x).isSome = true := by
      intro x hx
      cases hxi : getKey x with
      | none => exact absurd ⟨x, hx, hxi⟩ h
      | some v => rfl
    obtain ⟨m, hm⟩ := index_objects_ok getKey hall
    exact ⟨m, by rw [if_neg he]; exact hm⟩

theorem checkIds_error {inp : SchedInput} (h : anyMissingId inp = true) :
    checkIds inp = Except.error PyError.keyError := by
  simp only [anyMissingId, Bool.or_eq_true, List.any_eq_true,
    Option.isNone_iff_eq_none] at h
  unfold checkIds
  by_cases h1 : ∃ x ∈ inp.faculty_list, x.id = none
  · rw [guard_index_error Faculty.id h1]
  · obtain ⟨m1, hm1⟩ := guard_index_ok Faculty.id h1
    rw [hm1]
    by_cases h2 : ∃ x ∈ inp.room_list, x.id = none
    · rw [guard_index_error Room.id h2]
    · obtain ⟨m2, hm2⟩ := guard_index_ok Room.id h2
      rw [hm2]
      by_cases h3 : ∃ x ∈ inp.subject_list, x.id = none
      · rw [guard_index_error Subject.id h3]
      · obtain ⟨m3, hm3⟩ := guard_index_ok Subject.id h3
        rw [hm3]
        by_cases h4 : ∃ x ∈ inp.batch_list, x.id = none
        · rw [guard_index_error Batch.id h4]
        · obtain ⟨m4, hm4⟩ := guard_index_ok Batch.id h4
          rw [hm4]
          have h5 : ∃ x ∈ inp.timeslot_list, x.id = none := by
            rcases h with ((((hf | hr) | hs) | hb) | ht)
            · exact absurd hf h1
            · exact absurd hr h2
            · exact absurd hs h3
            · exact absurd hb h4
            · exact ht
          obtain ⟨x, hx, hxn⟩ := h5
          rw [if_neg (by simp [isEmpty_false_of_mem hx]), extract_error ⟨x, hx, hxn⟩]

/-- C4 counterexample: a fixed-assignment entry naming a subject id with no
decision variable (its key is not in the variable space) does not make the call
fail — the call returns a normal "ok" result. -/
theorem C4_dangling_fix_no_error :
    generate_schedule_from_inputs c4Input = Except.ok (ScheduleResult.ok [c4A1]) ∧
    hasKey (ksOf c4Input ["t1"]) (fixKey c4Fix) = false := by
  constructor
  · decide
  · decide

/-- C4 (amended): a fixed-assignment entry whose
(subject_id, batch_id, slot, room_id, faculty_id) tuple has no decision variable
is silently dropped from the model: `model.Add` is guarded by `if v is not None`,
so appending such an entry leaves the call's result unchanged — it neither fails
nor constrains anything. -/
theorem C4_dangling_fix_ignored (inp : SchedInput) (f : FixedAssignment) (ts : List String)
    (hts : checkIds inp = Except.ok ts)
    (hnk : hasKey (ksOf inp ts) (fixKey f) = false) :
    generate_schedule_from_inputs { inp with fixed_assignments := inp.fixed_assignments ++ [f] }
      = generate_schedule_from_inputs inp := by
  have hc : checkIds { inp with fixed_assignments := inp.fixed_assignments ++ [f] }
      = checkIds inp := rfl
  refine generate_congr hc (fun _ _ => rfl) ?_ (fun _ _ => rfl)
  intro ts' hts'
  have hts2 : checkIds inp = Except.ok ts' := by rw [← hc]; exact hts'
  rw [hts] at hts2
  injection hts2 with he
  subst he
  funext σ
  show modelOK { inp with fixed_assignments := inp.fixed_assignments ++ [f] } ts
        (ksOf inp ts) σ
      = modelOK inp ts (ksOf inp ts) σ
  have step1 := modelOK_fixed_congr inp ts (ksOf inp ts) σ
    (@fixedOK_append_dangling (ksOf inp ts) σ inp.fixed_assignments f hnk)
  exact step1

/-- C4 witness: the amended theorem applied to the concrete single-slot scenario
and the dangling entry naming subject "zz". -/
theorem C4_dangling_fix_ignored_witness :
    generate_schedule_from_inputs
        { c4InputNoFix with fixed_assignments := c4InputNoFix.fixed_assignments ++ [c4Fix] }
      = generate_schedule_from_inputs c4InputNoFix :=
  C4_dangling_fix_ignored c4InputNoFix c4Fix ["t1"] (by decide) (by decide)

/-- C5 counterexample: two room entries sharing the id "r1" do not make the call
fail — no `InputError` (or any error) is raised; the call returns an "ok" result. -/
theorem C5_duplicate_ids_no_error :
    generate_schedule_from_inputs c5Input = Except.ok (ScheduleResult.ok []) ∧
    c5Input.room_list.map Room.id = [some "r1", some "r1"] := by
  constructor
  · decide
  · decide

/-- C5 (amended): an entry missing its id makes the call fail (with the untyped
`KeyError` raised while the id-keyed index is built, before any decision variable
is created — `checkIds` precedes `generateCore` in `generate_schedule_from_inputs`);
entries with duplicate ids never fail the call: the index silently keeps the last
entry per id and is never consulted afterwards. -/
theorem C5_missing_id_fails (inp : SchedInput) (h : anyMissingId inp = true) :
    generate_schedule_from_inputs inp = Except.error PyError.keyError := by
  unfold generate_schedule_from_inputs
  rw [checkIds_error h]

/-- C5 witness: the amended theorem applied to an input whose sole faculty entry
misses its id. -/
theorem C5_missing_id_fails_witness :
    generate_schedule_from_inputs missingIdInput = Except.error PyError.keyError :=
  C5_missing_id_fails missingIdInput (by decide)

theorem objValue_filter (dks : List AKey) (facs : List Faculty) (rooms : List Room)
    (batches : List Batch) (σ : AKey → Bool) :
    objValue dks facs rooms batches σ =
      ((dks.filter σ).map (objCoeff facs rooms batches)).sum := by
  induction dks with
  | nil => rfl
  | cons k rest ih =>
    by_cases hk : σ k = true
    · simp [objValue, List.filter_cons, hk, ← ih]
    · simp only [Bool.not_eq_true] at hk
      simp [objValue, List.filter_cons, hk, ← ih]

/-- C8: the maximized expression is linear — its value is the sum of one integer
coefficient per chosen variable — and each variable's coefficient is the base 1,
plus 1 when its slot is in its faculty's `preferred_slots`, plus 1 when its
room's `room_affinity` contains its batch's branch id or track code; hence every
coefficient is 1, 2 or 3. -/
theorem C8_objective_coefficients :
    (∀ (facs : List Faculty) (rooms : List Room) (batches : List Batch) (k : AKey),
      objCoeff facs rooms batches k =
        1 + specFacultyPreferredBonus facs k + specRoomAffinityBonus rooms batches k) ∧
    (∀ (facs : List Faculty) (rooms : List Room) (batches : List Batch) (k : AKey),
      objCoeff facs rooms batches k = 1 ∨ objCoeff facs rooms batches k = 2 ∨
        objCoeff facs rooms batches k = 3) ∧
    (∀ (dks : List AKey) (facs : List Faculty) (rooms : List Room) (batches : List Batch)
        (σ : AKey → Bool),
      objValue dks facs rooms batches σ =
        ((dks.filter σ).map (objCoeff facs rooms batches)).sum) := by
  refine ⟨?_, ?_, objValue_filter⟩
  · intro facs rooms batches k
    unfold objCoeff specFacultyPreferredBonus specRoomAffinityBonus
    cases facs.find? (fun f => decide (f.id = k.fac_id)) <;>
      cases rooms.find? (fun r => decide (r.id = k.room_id)) <;>
        cases batches.find? (fun b => decide (b.id = k.batch_id)) <;>
          try rfl
    all_goals
      rename_i batch
      dsimp only []
      cases batch.branch_id <;> cases batch.track_code <;> rfl
  · intro facs rooms batches k
    unfold objCoeff
    cases facs.find? (fun f => decide (f.id = k.fac_id)) <;>
      cases rooms.find? (fun r => decide (r.id = k.room_id)) <;>
        cases batches.find? (fun b => decide (b.id = k.batch_id)) <;>
          dsimp only [] <;> (try split_ifs) <;> decide

/-- C9: when the supplied timeslot list is empty the call does not fail — it
builds and solves the model over the eight synthetic slot ids
"slot_1" … "slot_8" (in that order). -/
theorem C9_fallback_slots (inp : SchedInput) (h : inp.timeslot_list = [])
    (hids : entityIdsPresent inp = true) :
    generate_schedule_from_inputs inp = Except.ok (generateCore inp fallbackSlots) ∧
    fallbackSlots = ["slot_1", "slot_2", "slot_3", "slot_4", "slot_5", "slot_6",
                     "slot_7", "slot_8"] := by
  have hxc : checkIds inp = Except.ok fallbackSlots := by
    simp only [entityIdsPresent, Bool.and_eq_true, List.all_eq_true] at hids
    obtain ⟨⟨⟨hf, hr⟩, hs⟩, hb⟩ := hids
    have hnf : ¬ ∃ x ∈ inp.faculty_list, x.id = none := by
      rintro ⟨x, hx, hxn⟩
      have := hf x hx
      rw [hxn] at this
      cases this
    have hnr : ¬ ∃ x ∈ inp.room_list, x.id = none := by
      rintro ⟨x, hx, hxn⟩
      have := hr x hx
      rw [hxn] at this
      cases this
    have hns : ¬ ∃ x ∈ inp.subject_list, x.id = none := by
      rintro ⟨x, hx, hxn⟩
      have := hs x hx
      rw [hxn] at this
      cases this
    have hnb : ¬ ∃ x ∈ inp.batch_list, x.id = none := by
      rintro ⟨x, hx, hxn⟩
      have := hb x hx
      rw [hxn] at this
      cases this
    obtain ⟨m1, h1⟩ := guard_index_ok Faculty.id hnf
    obtain ⟨m2, h2⟩ := guard_index_ok Room.id hnr
    obtain ⟨m3, h3⟩ := guard_index_ok Subject.id hns
    obtain ⟨m4, h4⟩ := guard_index_ok Batch.id hnb
    unfold checkIds
    rw [h1, h2, h3, h4, h]
    rfl
  constructor
  · unfold generate_schedule_from_inputs
    rw [hxc]
  · decide

/-- C9 witness: the theorem applied to the all-empty input. -/
theorem C9_fallback_slots_witness :
    generate_schedule_from_inputs emptyInput = Except.ok (generateCore emptyInput fallbackSlots) ∧
    fallbackSlots = ["slot_1", "slot_2", "slot_3", "slot_4", "slot_5", "slot_6",
                     "slot_7", "slot_8"] :=
  C9_fallback_slots emptyInput rfl (by decide)

theorem forall2_map_id {facs facs' : List Faculty}
    (h : List.Forall₂ facultyVisibleEq facs facs') {β : Type} (g : Option String → β) :
    facs.map (fun f => g f.id) = facs'.map (fun f => g f.id) := by
  induction h with
  | nil => rfl
  | cons hfg htail ih =>
    simp only [List.map_cons, ih]
    rw [hfg.1]

theorem forall2_all_vis {facs facs' : List Faculty}
    (h : List.Forall₂ facultyVisibleEq facs facs')
    (g : Option String → List String → List String → Bool) :
    facs.all (fun f => g f.id f.available_slots f.preferred_slots)
      = facs'.all (fun f => g f.id f.available_slots f.preferred_slots) := by
  induction h with
  | nil => rfl
  | cons hfg htail ih =>
    simp only [List.all_cons, ih]
    rw [hfg.1, hfg.2.1, hfg.2.2]

theorem forall2_find_vis {facs facs' : List Faculty}
    (h : List.Forall₂ facultyVisibleEq facs facs') (x : Option String) :
    (facs.find? (fun f => decide (f.id = x)) = none ∧
      facs'.find? (fun f => decide (f.id = x)) = none) ∨
    (∃ f f', facs.find? (fun f => decide (f.id = x)) = some f ∧
      facs'.find? (fun f => decide (f.id = x)) = some f' ∧ facultyVisibleEq f f') := by
  induction h with
  | nil => exact Or.inl ⟨rfl, rfl⟩
  | cons hfg htail ih =>
    rename_i a b l l'
    by_cases hp : a.id = x
    · rw [List.find?_cons_of_pos _ (by simp [hp]),
        List.find?_cons_of_pos _ (by simp [← hfg.1, hp])]
      exact Or.inr ⟨a, b, rfl, rfl, hfg⟩
    · rw [List.find?_cons_of_neg _ (by simp [hp]),
        List.find?_cons_of_neg _ (by simp [← hfg.1, hp])]
      exact ih

theorem buildKeys_congr {facs facs' : List Faculty}
    (h : List.Forall₂ facultyVisibleEq facs facs') :
    ∀ (subs : List Subject) (batches : List Batch) (ts : List String) (rooms : List Room),
      buildKeys subs batches ts rooms facs = buildKeys subs batches ts rooms facs' := by
  intro subs batches ts rooms
  unfold buildKeys
  refine congrArg (List.flatMap subs) (funext fun sub => ?_)
  refine congrArg (List.flatMap batches) (funext fun batch => ?_)
  refine congrArg (List.flatMap ts) (funext fun slot => ?_)
  refine congrArg (List.flatMap rooms) (funext fun room => ?_)
  exact forall2_map_id h (fun i => (⟨sub.id, batch.id, slot, room.id, i⟩ : AKey))

theorem bsProduct_congr {facs facs' : List Faculty}
    (h : List.Forall₂ facultyVisibleEq facs facs') :
    ∀ (subs : List Subject) (rooms : List Room) (batch_id : Option String) (slot : String),
      bsProduct subs rooms facs batch_id slot = bsProduct subs rooms facs' batch_id slot := by
  intro subs rooms batch_id slot
  unfold bsProduct
  refine congrArg (List.flatMap subs) (funext fun sub => ?_)
  refine congrArg (List.flatMap rooms) (funext fun room => ?_)
  exact forall2_map_id h (fun i => (⟨sub.id, batch_id, slot, room.id, i⟩ : AKey))

theorem rsProduct_congr {facs facs' : List Faculty}
    (h : List.Forall₂ facultyVisibleEq facs facs') :
    ∀ (subs : List Subject) (batches : List Batch) (room_id : Option String) (slot : String),
      rsProduct subs batches facs room_id slot = rsProduct subs batches facs' room_id slot := by
  intro subs batches room_id slot
  unfold rsProduct
  refine congrArg (List.flatMap subs) (funext fun sub => ?_)
  refine congrArg (List.flatMap batches) (funext fun batch => ?_)
  exact forall2_map_id h (fun i => (⟨sub.id, batch.id, slot, room_id, i⟩ : AKey))

theorem batchExclusiveOK_congr {facs facs' : List Faculty}
    (h : List.Forall₂ facultyVisibleEq facs facs') :
    ∀ (ks : List AKey) (σ : AKey → Bool) (subs : List Subject) (batches : List Batch)
      (ts : List String) (rooms : List Room),
      batchExclusiveOK ks σ subs batches ts rooms facs
        = batchExclusiveOK ks σ subs batches ts rooms facs' := by
  intro ks σ subs batches ts rooms
  unfold batchExclusiveOK batchSlotSum
  refine congrArg (List.all batches) (funext fun batch => ?_)
  refine congrArg (List.all ts) (funext fun slot => ?_)
  rw [bsProduct_congr h]

theorem facultyExclusiveOK_congr {facs facs' : List Faculty}
    (h : List.Forall₂ facultyVisibleEq facs facs') :
    ∀ (ks : List AKey) (σ : AKey → Bool) (subs : List Subject) (batches : List Batch)
      (ts : List String) (rooms : List Room),
      facultyExclusiveOK ks σ subs batches ts rooms facs
        = facultyExclusiveOK ks σ subs batches ts rooms facs' := by
  intro ks σ subs batches ts rooms
  unfold facultyExclusiveOK
  exact forall2_all_vis h (fun i _ _ =>
    ts.all fun slot => decide (facSlotSum ks σ subs batches rooms i slot ≤ 1))

theorem roomExclusiveOK_congr {facs facs' : List Faculty}
    (h : List.Forall₂ facultyVisibleEq facs facs') :
    ∀ (ks : List AKey) (σ : AKey → Bool) (subs : List Subject) (batches : List Batch)
      (ts : List String) (rooms : List Room),
      roomExclusiveOK ks σ subs batches ts rooms facs
        = roomExclusiveOK ks σ subs batches ts rooms facs' := by
  intro ks σ subs batches ts rooms
  unfold roomExclusiveOK roomSlotSum
  refine congrArg (List.all rooms) (funext fun room => ?_)
  refine congrArg (List.all ts) (funext fun slot => ?_)
  rw [rsProduct_congr h]

theorem availabilityOK_congr {facs facs' : List Faculty}
    (h : List.Forall₂ facultyVisibleEq facs facs') :
    ∀ (ks : List AKey) (σ : AKey → Bool) (subs : List Subject) (batches : List Batch)
      (ts : List String) (rooms : List Room),
      availabilityOK ks σ facs subs batches ts rooms
        = availabilityOK ks σ facs' subs batches ts rooms := by
  intro ks σ subs batches ts rooms
  unfold availabilityOK
  exact forall2_all_vis h (fun i av _ =>
    subs.all fun sub => batches.all fun batch => ts.all fun slot =>
      if av ≠ [] ∧ slot ∉ av then
        rooms.all fun room =>
          !(hasKey ks ⟨sub.id, batch.id, slot, room.id, i⟩ &&
            σ ⟨sub.id, batch.id, slot, room.id, i⟩)
      else true)

theorem capacityOK_congr {facs facs' : List Faculty}
    (h : List.Forall₂ facultyVisibleEq facs facs') :
    ∀ (ks : List AKey) (σ : AKey → Bool) (subs : List Subject) (batches : List Batch)
      (ts : List String) (rooms : List Room),
      capacityOK ks σ rooms subs batches ts facs
        = capacityOK ks σ rooms subs batches ts facs' := by
  intro ks σ subs batches ts rooms
  unfold capacityOK
  refine congrArg (List.all rooms) (funext fun room => ?_)
  refine congrArg (List.all subs) (funext fun sub => ?_)
  refine congrArg (List.all batches) (funext fun batch => ?_)
  refine congrArg (fun t => if batch.student_count > room.capacity then t else true) ?_
  refine congrArg (List.all ts) (funext fun slot => ?_)
  exact forall2_all_vis h (fun i _ _ =>
    !(hasKey ks ⟨sub.id, batch.id, slot, room.id, i⟩ &&
      σ ⟨sub.id, batch.id, slot, room.id, i⟩))

theorem continuityOK_congr {facs facs' : List Faculty}
    (h : List.Forall₂ facultyVisibleEq facs facs') :
    ∀ (ks : List AKey) (σ : AKey → Bool) (subs : List Subject) (batches : List Batch)
      (ts : List String) (rooms : List Room),
      continuityOK ks σ subs batches ts rooms facs
        = continuityOK ks σ subs batches ts rooms facs' := by
  intro ks σ subs batches ts rooms
  unfold continuityOK
  refine congrArg (List.all subs) (funext fun sub => ?_)
  refine congrArg
    (fun t => if sub.subject_type = "lab" ∨ sub.requires_continuous_slots = true then t
      else true) ?_
  refine congrArg (List.all batches) (funext fun batch => ?_)
  refine congrArg (List.all ts) (funext fun start_slot => ?_)
  cases consecRun ts (slotIndexOf ts start_slot) sub.duration with
  | none =>
    refine congrArg (List.all rooms) (funext fun room => ?_)
    exact forall2_all_vis h (fun i _ _ =>
      !(hasKey ks ⟨sub.id, batch.id, start_slot, room.id, i⟩ &&
        σ ⟨sub.id, batch.id, start_slot, room.id, i⟩))
  | some consec =>
    refine congrArg (List.all rooms) (funext fun room => ?_)
    exact forall2_all_vis h (fun i _ _ =>
      if hasKey ks ⟨sub.id, batch.id, start_slot, room.id, i⟩ then
        (consec.drop 1).all fun st =>
          if hasKey ks ⟨sub.id, batch.id, st, room.id, i⟩ then
            !(σ ⟨sub.id, batch.id, start_slot, room.id, i⟩) ||
              σ ⟨sub.id, batch.id, st, room.id, i⟩
          else true
      else true)

theorem objCoeff_congr {facs facs' : List Faculty}
    (h : List.Forall₂ facultyVisibleEq facs facs') :
    ∀ (rooms : List Room) (batches : List Batch) (k : AKey),
      objCoeff facs rooms batches k = objCoeff facs' rooms batches k := by
  intro rooms batches k
  simp only [objCoeff]
  rcases forall2_find_vis h k.fac_id with ⟨hn, hn'⟩ | ⟨f, f', hf, hf', hvis⟩
  · rw [hn, hn']
  · rw [hf, hf']
    dsimp only []
    rw [hvis.2.2]

theorem objValue_faculty_congr {facs facs' : List Faculty}
    (h : List.Forall₂ facultyVisibleEq facs facs') :
    ∀ (dks : List AKey) (rooms : List Room) (batches : List Batch) (σ : AKey → Bool),
      objValue dks facs rooms batches σ = objValue dks facs' rooms batches σ := by
  intro dks rooms batches σ
  unfold objValue
  refine congrArg List.sum ?_
  refine congrArg (fun g => List.map g dks) (funext fun k => ?_)
  by_cases hk : σ k = true
  · simp only [hk, if_true]
    exact objCoeff_congr h rooms batches k
  · simp only [Bool.not_eq_true] at hk
    simp [hk]

theorem ksOf_faculty_congr {base : SchedInput} {facs facs' : List Faculty}
    (h : List.Forall₂ facultyVisibleEq facs facs') (ts : List String) :
    ksOf { base with faculty_list := facs } ts = ksOf { base with faculty_list := facs' } ts := by
  dsimp only [ksOf]
  exact buildKeys_congr h _ _ _ _

theorem modelOK_faculty_congr {base : SchedInput} {facs facs' : List Faculty}
    (h : List.Forall₂ facultyVisibleEq facs facs') (ts : List String) (ks : List AKey)
    (σ : AKey → Bool) :
    modelOK { base with faculty_list := facs } ts ks σ
      = modelOK { base with faculty_list := facs' } ts ks σ := by
  dsimp only [modelOK]
  rw [batchExclusiveOK_congr h, facultyExclusiveOK_congr h, roomExclusiveOK_congr h,
    availabilityOK_congr h, capacityOK_congr h, continuityOK_congr h]

theorem forall2_missing_transfer {facs facs' : List Faculty}
    (h : List.Forall₂ facultyVisibleEq facs facs')
    (hm : ∃ x ∈ facs, x.id = none) : ∃ x ∈ facs', x.id = none := by
  have hmap := forall2_map_id h (fun i => i)
  have h1 : (none : Option String) ∈ facs.map (fun f => f.id) := by
    obtain ⟨x, hx, hxn⟩ := hm
    exact List.mem_map.mpr ⟨x, hx, hxn⟩
  rw [hmap] at h1
  obtain ⟨x, hx, hxn⟩ := List.mem_map.mp h1
  exact ⟨x, hx, hxn⟩

theorem forall2_vis_symm {facs facs' : List Faculty}
    (h : List.Forall₂ facultyVisibleEq facs facs') :
    List.Forall₂ facultyVisibleEq facs' facs := by
  induction h with
  | nil => exact List.Forall₂.nil
  | cons hfg htail ih => exact List.Forall₂.cons ⟨hfg.1.symm, hfg.2.1.symm, hfg.2.2.symm⟩ ih

theorem checkIds_faculty_congr {base : SchedInput} {facs facs' : List Faculty}
    (h : List.Forall₂ facultyVisibleEq facs facs') :
    checkIds { base with faculty_list := facs } = checkIds { base with faculty_list := facs' } := by
  by_cases hm : ∃ x ∈ facs, x.id = none
  · have hm' := forall2_missing_transfer h hm
    unfold checkIds
    dsimp only []
    rw [guard_index_error Faculty.id hm, guard_index_error Faculty.id hm']
  · have hm' : ¬ ∃ x ∈ facs', x.id = none :=
      fun hc => hm (forall2_missing_transfer (forall2_vis_symm h) hc)
    obtain ⟨m1, h1⟩ := guard_index_ok Faculty.id hm
    obtain ⟨m1', h1'⟩ := guard_index_ok Faculty.id hm'
    unfold checkIds
    dsimp only []
    rw [h1, h1']

/-- C10: two inputs that differ only in the faculty fields `available_days`
and/or `no_consecutive_slots` produce exactly the same model — same variable
space, same constraint predicate, same objective coefficients — and the same
returned result: those two fields are read but never influence anything. -/
theorem C10_unused_faculty_fields (base : SchedInput) (facs facs' : List Faculty)
    (h : List.Forall₂ facultyVisibleEq facs facs') :
    (∀ ts, ksOf { base with faculty_list := facs } ts
        = ksOf { base with faculty_list := facs' } ts) ∧
    (∀ ts ks σ, modelOK { base with faculty_list := facs } ts ks σ
        = modelOK { base with faculty_list := facs' } ts ks σ) ∧
    (∀ k, objCoeff facs base.room_list base.batch_list k
        = objCoeff facs' base.room_list base.batch_list k) ∧
    generate_schedule_from_inputs { base with faculty_list := facs }
      = generate_schedule_from_inputs { base with faculty_list := facs' } := by
  refine ⟨ksOf_faculty_congr h, modelOK_faculty_congr h, objCoeff_congr h _ _, ?_⟩
  refine generate_congr (checkIds_faculty_congr h) ?_ ?_ ?_
  · intro ts _
    dsimp only [dksOf]
    rw [ksOf_faculty_congr h]
  · intro ts _
    funext σ
    show modelOK { base with faculty_list := facs } ts
        (ksOf { base with faculty_list := facs } ts) σ
      = modelOK { base with faculty_list := facs' } ts
        (ksOf { base with faculty_list := facs' } ts) σ
    rw [ksOf_faculty_congr h, modelOK_faculty_congr h]
  · intro ts _
    funext s
    dsimp only [scoreOf, dksOf]
    rw [ksOf_faculty_congr h, objValue_faculty_congr h]

/-- C10 witness: the theorem applied to two singleton faculty lists differing in
`available_days` and `no_consecutive_slots`. -/
theorem C10_unused_faculty_fields_witness :
    generate_schedule_from_inputs { c10Base with faculty_list := [c10FacA] }
      = generate_schedule_from_inputs { c10Base with faculty_list := [c10FacB] } :=
  (C10_unused_faculty_fields c10Base [c10FacA] [c10FacB]
    (List.Forall₂.cons ⟨rfl, rfl, rfl⟩ List.Forall₂.nil)).2.2.2
